import Mathlib

/-
  Shallow embedding of src/src/threadpool.rs (crate underlion).

  The Rust file defines a CountdownLatch (AtomicU32 counter + Mutex<bool>
  status + Condvar), a ThreadPool built over a crossbeam unbounded channel,
  a Wait handle (shared latch or no-op), and a BranchedExecutor that either
  runs tasks inline on the calling thread or forwards them to the pool.

  Machine integers: the latch counter is a u32; all its arithmetic is
  modelled on Nat with explicit reduction mod 2^32 (release-mode wrapping
  semantics of fetch_sub followed by the plain `- 1`).
-/

namespace Underlion

/-- Modulus of u32 arithmetic: 2^32. -/
def U32LIM : Nat := 4294967296

/-- State of `CountdownLatch` (threadpool.rs lines 111-115): the boolean
behind the `status: Mutex<bool>` and the value of `count: AtomicU32`.
The Condvar carries no state of its own. -/
structure CountdownLatch where
  status : Bool
  count : Nat
deriving DecidableEq

/-- `CountdownLatch::new(count)` (lines 117-124): status false, counter = count.
The Rust constructor takes a `u32`, so the stored value is reduced mod 2^32. -/
def CountdownLatch.new (count : Nat) : CountdownLatch :=
  { status := false, count := count % U32LIM }

/-- Value of `self.count.fetch_sub(1, Relaxed) - 1` in `countdown`
(line 136): the post-decrement counter, with u32 wrapping. -/
def CountdownLatch.postDecrement (l : CountdownLatch) : Nat :=
  (l.count + (U32LIM - 1)) % U32LIM

/-- `CountdownLatch::countdown` (lines 135-142): the counter always becomes the
post-decrement value; `cur_count <= 0` on a u32 means `cur_count == 0`, and only
then is the released flag set (and the condvar notified). -/
def CountdownLatch.countdown (l : CountdownLatch) : CountdownLatch :=
  if l.postDecrement = 0 then { status := true, count := l.postDecrement }
  else { status := l.status, count := l.postDecrement }

/-- Whether this `countdown` call takes the `cur_count <= 0` branch, i.e. sets
the released flag and calls `notify_all` (lines 137-141). -/
def CountdownLatch.countdownNotifies (l : CountdownLatch) : Bool :=
  l.postDecrement == 0

/-- Outcome of a `CountdownLatch::wait` call (lines 126-133) as a function of
the latch state at the moment of the call. -/
inductive WaitPath where
  /-- The `count > 0` test failed: return at once, mutex never locked,
  condvar never touched. -/
  | fastReturn
  /-- The mutex was locked but the status flag was already true: return
  without waiting on the condvar. -/
  | lockedReturn
  /-- The caller blocks on the condvar until some countdown notifies it. -/
  | blocked
deriving DecidableEq

/-- `CountdownLatch::wait` (lines 126-133): fast path when the counter load is
not positive; otherwise lock the mutex and wait on the condvar unless the
status flag is already set. -/
def CountdownLatch.waitPath (l : CountdownLatch) : WaitPath :=
  if l.count > 0 then
    if l.status then WaitPath.lockedReturn else WaitPath.blocked
  else WaitPath.fastReturn

/-- The latch after `new(n)` followed by `k` calls to `countdown()`. -/
def CountdownLatch.afterCountdowns (n k : Nat) : CountdownLatch :=
  match k with
  | 0 => CountdownLatch.new n
  | k + 1 => (CountdownLatch.afterCountdowns n k).countdown

/-- A call on a latch: either `wait()` or `countdown()`. -/
inductive LatchOp where
  | wait
  | countdown
deriving DecidableEq

/-- Effect of one latch call on the latch state: `wait` only reads,
`countdown` decrements as in the source. -/
def CountdownLatch.applyOp (l : CountdownLatch) : LatchOp → CountdownLatch
  | LatchOp.wait => l
  | LatchOp.countdown => l.countdown

/-- Effect of a sequence of latch calls, first call first. -/
def CountdownLatch.applyOps (l : CountdownLatch) (ops : List LatchOp) : CountdownLatch :=
  ops.foldl CountdownLatch.applyOp l

/-- `ThreadCommand<T>` (threadpool.rs lines 145-148). A latch shared through an
`Arc` is represented by an index into an arena of latch states. -/
inductive ThreadCommand (T : Type) where
  | command (task : T) (latch : Option Nat)
  | die
deriving DecidableEq

/-- State owned by or reachable from a `ThreadPool<T>` (lines 6-10):
the configured thread count, the dead flag, the contents of the crossbeam
channel (FIFO: send appends at the tail, recv takes the head), and the arena
holding every latch the pool has allocated (`Wait.latch i` and
`ThreadCommand.command _ (some i)` point into it). -/
structure ThreadPool (T : Type) where
  threadcount : Nat
  dead : Bool
  queue : List (ThreadCommand T)
  latches : List CountdownLatch

/-- `Wait` (lines 96-100): a shared latch (by arena index) or a no-op marker. -/
inductive Wait where
  | latch (id : Nat)
  | noop
deriving DecidableEq

/-- Look up a latch in the arena (out-of-range defaults are never reached on
indices the model hands out). -/
def getLatch (latches : List CountdownLatch) (lid : Nat) : CountdownLatch :=
  latches.getD lid (CountdownLatch.new 0)

/-- `Wait::wait` (lines 102-108): delegate to the latch if present; the no-op
variant returns at once without touching any primitive. -/
def Wait.waitPath (latches : List CountdownLatch) : Wait → WaitPath
  | Wait.latch lid => (getLatch latches lid).waitPath
  | Wait.noop => WaitPath.fastReturn

/-- `ThreadPool::new` (lines 13-37): fresh empty channel, `threadcount` worker
threads spawned (reflected in the run model below), dead = false. No latch
exists yet. -/
def ThreadPool.new (T : Type) (threadcount : Nat) : ThreadPool T :=
  { threadcount := threadcount, dead := false, queue := [], latches := [] }

/-- `ThreadPool::send` (lines 39-47): if not dead, allocate a fresh latch with
count 1, enqueue one command carrying the task and that latch, and return the
latch as a Wait handle; the channel send result is discarded (`let _ =`).
If dead, hand the task back unchanged. -/
def ThreadPool.send {T : Type} (p : ThreadPool T) (task : T) :
    Except T Wait × ThreadPool T :=
  if !p.dead then
    (Except.ok (Wait.latch p.latches.length),
      { p with latches := p.latches ++ [CountdownLatch.new 1],
               queue := p.queue ++
                 [ThreadCommand.command task (some p.latches.length)] })
  else
    (Except.error task, p)

/-- `ThreadPool::send_all` (lines 49-59): if not dead, allocate one fresh latch
with count `tasks.len() as u32` and enqueue one command per task, each sharing
that latch, preserving input order; channel send results are discarded.
If dead, hand the whole batch back unchanged. -/
def ThreadPool.sendAll {T : Type} (p : ThreadPool T) (tasks : List T) :
    Except (List T) Wait × ThreadPool T :=
  if !p.dead then
    (Except.ok (Wait.latch p.latches.length),
      { p with latches := p.latches ++ [CountdownLatch.new tasks.length],
               queue := p.queue ++ tasks.map
                 (fun t => ThreadCommand.command t (some p.latches.length)) })
  else
    (Except.error tasks, p)

/-- `ThreadPool::die` (lines 61-66): set the dead flag and enqueue one `Die`
command per configured worker thread. -/
def ThreadPool.die {T : Type} (p : ThreadPool T) : ThreadPool T :=
  { p with dead := true,
           queue := p.queue ++ List.replicate p.threadcount ThreadCommand.die }

/-- `impl Drop for ThreadPool` (lines 69-73): dropping the pool calls `die`. -/
def ThreadPool.dropPool {T : Type} (p : ThreadPool T) : ThreadPool T :=
  p.die

/-- The inline body `for cmd in commands { f(cmd) }` of `BranchedExecutor::exec`
(lines 83-88). The callback is a boxed `Fn(T)` whose side effects are modelled
as a state transformer on an arbitrary state type. -/
def runInline {T S : Type} (f : T → S → S) : List T → S → S
  | [], s => s
  | c :: cs, s => runInline f cs (f c s)

/-- `BranchedExecutor<T>` (lines 75-78): either a boxed callback run on the
calling thread, or a thread pool. -/
inductive BranchedExecutor (T S : Type) where
  | thisThread (f : T → S → S)
  | pooled (pool : ThreadPool T)

/-- `BranchedExecutor::exec` (lines 81-93): the ThisThread variant runs every
command through the callback in order on the calling thread and returns
`Ok(Wait::Noop)`; the Pooled variant forwards the batch to `send_all`. -/
def BranchedExecutor.exec {T S : Type} :
    BranchedExecutor T S → List T → S →
      Except (List T) Wait × BranchedExecutor T S × S
  | BranchedExecutor.thisThread f, commands, s =>
      (Except.ok Wait.noop, BranchedExecutor.thisThread f, runInline f commands s)
  | BranchedExecutor.pooled pool, commands, s =>
      ((pool.sendAll commands).1,
        BranchedExecutor.pooled (pool.sendAll commands).2, s)

/-- Countdown the latch a finished command points at, if any (lines 26-28 of
the worker loop: `if let Some(c) = countdown { c.countdown(); }`). -/
def countdownAt (latches : List CountdownLatch) : Option Nat → List CountdownLatch
  | none => latches
  | some lid => latches.set lid (getLatch latches lid).countdown

/-- A pool together with its running worker threads (lines 18-31): `workers`
counts the threads still inside their receive loop, `inflight` the commands a
worker has received and is currently running through the worker function, and
`done` the commands whose worker-function invocation has completed (in
completion order). -/
structure PoolRun (T : Type) where
  pool : ThreadPool T
  workers : Nat
  inflight : List (T × Option Nat)
  done : List (T × Option Nat)

/-- One scheduler step of the worker threads (lines 22-30). A worker must be
idle (not running a task) to call `recv()`, and the channel hands the head of
the queue to exactly one worker. Receiving `Die` breaks the `while let` loop,
so that worker exits. Finishing a task appends it to `done` and runs the
attached countdown; any in-flight task may finish first (completion order is
unconstrained). -/
inductive PoolStep (T : Type) : PoolRun T → PoolRun T → Prop where
  | dequeueTask (r : PoolRun T) (t : T) (lid : Option Nat)
      (rest : List (ThreadCommand T))
      (hq : r.pool.queue = ThreadCommand.command t lid :: rest)
      (hw : r.inflight.length < r.workers) :
      PoolStep T r
        { r with pool := { r.pool with queue := rest },
                 inflight := r.inflight ++ [(t, lid)] }
  | finishTask (r : PoolRun T) (pre post : List (T × Option Nat))
      (t : T) (lid : Option Nat)
      (hin : r.inflight = pre ++ (t, lid) :: post) :
      PoolStep T r
        { r with inflight := pre ++ post,
                 done := r.done ++ [(t, lid)],
                 pool := { r.pool with
                           latches := countdownAt r.pool.latches lid } }
  | dequeueDie (r : PoolRun T) (rest : List (ThreadCommand T))
      (hq : r.pool.queue = ThreadCommand.die :: rest)
      (hw : r.inflight.length < r.workers) :
      PoolStep T r
        { r with pool := { r.pool with queue := rest },
                 workers := r.workers - 1 }

/-- Reflexive-transitive closure of `PoolStep`: every state a running pool can
reach from a given one. -/
inductive PoolReach (T : Type) : PoolRun T → PoolRun T → Prop where
  | refl (r : PoolRun T) : PoolReach T r r
  | tail (a b c : PoolRun T) :
      PoolReach T a b → PoolStep T b c → PoolReach T a c

/-- Tasks carried by the commands of a queue, in order. -/
def queueTasks {T : Type} (q : List (ThreadCommand T)) : List T :=
  q.filterMap (fun c => match c with
    | ThreadCommand.command t _ => some t
    | ThreadCommand.die => none)

/-- The run state immediately after `ThreadPool::new(tc)` followed by
`send_all(tasks)`: all workers idle, nothing executed yet. -/
def initialBatchRun (T : Type) (tc : Nat) (tasks : List T) : PoolRun T :=
  { pool := ((ThreadPool.new T tc).sendAll tasks).2,
    workers := tc, inflight := [], done := [] }

/-- The run state immediately after `ThreadPool::new(tc)` followed by
`send(task)`. -/
def initialSendRun (T : Type) (tc : Nat) (task : T) : PoolRun T :=
  { pool := ((ThreadPool.new T tc).send task).2,
    workers := tc, inflight := [], done := [] }

/-- Shape of every command `send_all` enqueues on a fresh pool: the task plus
latch index 0, the one latch the fresh pool has allocated. -/
def batchCmd {T : Type} (t : T) : ThreadCommand T :=
  ThreadCommand.command t (some 0)

/-- Invariant of a run that started as `initialBatchRun`: the queue holds only
batch commands (latch 0), every in-flight command carries latch 0, the batch
tasks are exactly distributed over queue, in-flight and done (each task in
exactly one place), and the single latch of the arena holds the released flag
and counter dictated by how many tasks are done. -/
structure BatchInv {T : Type} (tasks : List T) (r : PoolRun T) : Prop where
  queue_eq : ∃ qts : List T, r.pool.queue = qts.map batchCmd
  inflight_lids : ∀ e ∈ r.inflight, e.2 = some 0
  conserve : List.Perm
    (queueTasks r.pool.queue ++ r.inflight.map Prod.fst ++ r.done.map Prod.fst)
    tasks
  latches_eq : r.pool.latches =
    [{ status := decide (r.done.length = tasks.length ∧ 0 < tasks.length),
       count := tasks.length - r.done.length }]

/-- Concrete demonstration run for the batch [5] on one worker: start state. -/
def c2demoRun0 : PoolRun Nat := initialBatchRun Nat 1 [5]

/-- Demonstration run after the worker dequeues the one command. -/
def c2demoRun1 : PoolRun Nat :=
  { c2demoRun0 with
      pool := { c2demoRun0.pool with queue := [] },
      inflight := c2demoRun0.inflight ++ [(5, some 0)] }

/-- Demonstration run after the worker finishes the task and counts down. -/
def c2demoRun2 : PoolRun Nat :=
  { c2demoRun1 with
      inflight := ([] : List (Nat × Option Nat)) ++ [],
      done := c2demoRun1.done ++ [(5, some 0)],
      pool := { c2demoRun1.pool with
                latches := countdownAt c2demoRun1.pool.latches (some 0) } }

theorem U32LIM_pos : 0 < U32LIM := by decide

theorem postDecrement_eq (l : CountdownLatch) (h1 : l.count < U32LIM)
    (h2 : 1 ≤ l.count) : l.postDecrement = l.count - 1 := by
  unfold CountdownLatch.postDecrement
  have h3 : l.count + (U32LIM - 1) = (l.count - 1) + 1 * U32LIM := by
    have := U32LIM_pos; omega
  rw [h3, Nat.add_mul_mod_self_right]
  exact Nat.mod_eq_of_lt (by omega)

theorem count_countdown (l : CountdownLatch) :
    l.countdown.count = l.postDecrement := by
  unfold CountdownLatch.countdown
  split <;> rfl

theorem status_countdown (l : CountdownLatch) :
    l.countdown.status = (l.status || l.postDecrement == 0) := by
  unfold CountdownLatch.countdown
  split
  case isTrue h => simp [h]
  case isFalse h => simp [h]

theorem count_afterCountdowns (n k : Nat) (h1 : n < U32LIM) (h2 : k ≤ n) :
    (CountdownLatch.afterCountdowns n k).count = n - k := by
  induction k with
  | zero =>
    simp [CountdownLatch.afterCountdowns, CountdownLatch.new, Nat.mod_eq_of_lt h1]
  | succ k ih =>
    have hk : k ≤ n := Nat.le_of_succ_le h2
    have ihc := ih hk
    show ((CountdownLatch.afterCountdowns n k).countdown).count = n - (k + 1)
    rw [count_countdown, postDecrement_eq _ (by omega) (by omega)]
    omega

theorem status_afterCountdowns_lt (n k : Nat) (h1 : n < U32LIM) (hk : k < n) :
    (CountdownLatch.afterCountdowns n k).status = false := by
  induction k with
  | zero => simp [CountdownLatch.afterCountdowns, CountdownLatch.new]
  | succ k ih =>
    have hk2 : k < n := Nat.lt_of_succ_lt hk
    have hc : (CountdownLatch.afterCountdowns n k).count = n - k :=
      count_afterCountdowns n k h1 (Nat.le_of_lt hk2)
    show ((CountdownLatch.afterCountdowns n k).countdown).status = false
    rw [status_countdown, ih hk2, postDecrement_eq _ (by omega) (by omega)]
    simp; omega

theorem status_afterCountdowns_self (n : Nat) (h1 : n < U32LIM) (hn : 1 ≤ n) :
    (CountdownLatch.afterCountdowns n n).status = true := by
  obtain ⟨m, rfl⟩ : ∃ m, n = m + 1 := ⟨n - 1, by omega⟩
  have hc : (CountdownLatch.afterCountdowns (m + 1) m).count = m + 1 - m :=
    count_afterCountdowns (m + 1) m h1 (by omega)
  show ((CountdownLatch.afterCountdowns (m + 1) m).countdown).status = true
  rw [status_countdown, postDecrement_eq _ (by omega) (by omega)]
  simp; omega

theorem status_afterCountdowns_ge (n k : Nat) (h1 : n < U32LIM) (hn : 1 ≤ n)
    (hk : n ≤ k) : (CountdownLatch.afterCountdowns n k).status = true := by
  obtain ⟨j, rfl⟩ : ∃ j, k = n + j := ⟨k - n, by omega⟩
  induction j with
  | zero => exact status_afterCountdowns_self n h1 hn
  | succ j ih =>
    show ((CountdownLatch.afterCountdowns n (n + j)).countdown).status = true
    rw [status_countdown, ih (by omega)]
    simp

theorem waitPath_ne_blocked_of_status (l : CountdownLatch)
    (h : l.status = true) : l.waitPath ≠ WaitPath.blocked := by
  unfold CountdownLatch.waitPath
  by_cases hc : l.count > 0 <;> simp [hc, h]

theorem waitPath_of_count_zero (l : CountdownLatch) (h : l.count = 0) :
    l.waitPath = WaitPath.fastReturn := by
  unfold CountdownLatch.waitPath
  simp [h]

/-- C1, counterexample. The claim says over-counting a latch never deadlocks
and any counter at or below zero means released. But the counter is a u32: a
latch constructed with count 0 starts released (wait fast-returns), yet one
extra `countdown()` wraps the counter to 2^32 - 1 with the released flag still
false, so every subsequent `wait()` blocks forever — a deadlock. -/
theorem C1_counterexample :
    (CountdownLatch.afterCountdowns 0 0).waitPath = WaitPath.fastReturn ∧
    (CountdownLatch.afterCountdowns 0 1).waitPath = WaitPath.blocked ∧
    (CountdownLatch.afterCountdowns 0 1).count = 4294967295 ∧
    (CountdownLatch.afterCountdowns 0 1).status = false := by
  decide

/-- C1, amended: for every latch constructed with initial count n at least 1,
calling countdown() n or more times (any excess) leaves the released flag set,
every such call returns normally (u32 wrapping, no crash), and every
subsequent wait() returns without blocking. -/
theorem C1_overcount_released (n k : Nat) (h1 : 1 ≤ n) (h2 : n < U32LIM)
    (hk : n ≤ k) :
    (CountdownLatch.afterCountdowns n k).status = true ∧
    (CountdownLatch.afterCountdowns n k).waitPath ≠ WaitPath.blocked := by
  have hs := status_afterCountdowns_ge n k h2 h1 hk
  exact ⟨hs, waitPath_ne_blocked_of_status _ hs⟩

theorem C1_overcount_released_witness :
    (1 ≤ 2 ∧ 2 < U32LIM ∧ 2 ≤ 5) ∧
    ((CountdownLatch.afterCountdowns 2 5).status = true ∧
     (CountdownLatch.afterCountdowns 2 5).waitPath ≠ WaitPath.blocked) :=
  ⟨⟨by decide, by decide, by decide⟩,
    C1_overcount_released 2 5 (by decide) (by decide) (by decide)⟩

/-- C3: for a latch constructed with count n at least 1, after fewer than n
countdown() calls the released flag is still false and a wait() would block;
a countdown() call notifies exactly when it is the n-th one; and after the
n-th call the flag is set and wait() returns without blocking (counter 0,
fast path). -/
theorem C3_release_exactly_at_nth (n k : Nat) (h1 : 1 ≤ n) (h2 : n < U32LIM)
    (hk : k < n) :
    ((CountdownLatch.afterCountdowns n k).status = false ∧
     (CountdownLatch.afterCountdowns n k).waitPath = WaitPath.blocked) ∧
    ((CountdownLatch.afterCountdowns n k).countdownNotifies = true ↔ k + 1 = n) ∧
    ((CountdownLatch.afterCountdowns n n).status = true ∧
     (CountdownLatch.afterCountdowns n n).waitPath = WaitPath.fastReturn) := by
  have hc : (CountdownLatch.afterCountdowns n k).count = n - k :=
    count_afterCountdowns n k h2 (Nat.le_of_lt hk)
  have hs : (CountdownLatch.afterCountdowns n k).status = false :=
    status_afterCountdowns_lt n k h2 hk
  refine ⟨⟨hs, ?_⟩, ?_, ?_, ?_⟩
  · unfold CountdownLatch.waitPath
    rw [hc, hs]
    simp
    omega
  · unfold CountdownLatch.countdownNotifies
    rw [postDecrement_eq _ (by omega) (by omega), hc]
    simp
    omega
  · exact status_afterCountdowns_self n h2 h1
  · exact waitPath_of_count_zero _ (by rw [count_afterCountdowns n n h2 le_rfl]; omega)

theorem C3_release_exactly_at_nth_witness :
    (1 ≤ 3 ∧ 3 < U32LIM ∧ 2 < 3) ∧
    (((CountdownLatch.afterCountdowns 3 2).status = false ∧
      (CountdownLatch.afterCountdowns 3 2).waitPath = WaitPath.blocked) ∧
     ((CountdownLatch.afterCountdowns 3 2).countdownNotifies = true ↔ 2 + 1 = 3) ∧
     ((CountdownLatch.afterCountdowns 3 3).status = true ∧
      (CountdownLatch.afterCountdowns 3 3).waitPath = WaitPath.fastReturn)) :=
  ⟨⟨by decide, by decide, by decide⟩,
    C3_release_exactly_at_nth 3 2 (by decide) (by decide) (by decide)⟩

/-- C5: a wait() on a latch whose counter is zero (the only u32 value at or
below zero), in particular one constructed with count 0, takes the fast path:
it returns at once without locking the mutex or touching the condvar. -/
theorem C5_wait_fast_path (l : CountdownLatch) (h : l.count = 0) :
    l.waitPath = WaitPath.fastReturn ∧
    (CountdownLatch.new 0).waitPath = WaitPath.fastReturn :=
  ⟨waitPath_of_count_zero l h, waitPath_of_count_zero _ (by decide)⟩

theorem C5_wait_fast_path_witness :
    (CountdownLatch.new 0).count = 0 ∧
    ((CountdownLatch.new 0).waitPath = WaitPath.fastReturn ∧
     (CountdownLatch.new 0).waitPath = WaitPath.fastReturn) :=
  ⟨by decide, C5_wait_fast_path (CountdownLatch.new 0) (by decide)⟩

/-- C9, counterexample. The claim says the counter never increases and that a
latch whose counter is at or below zero is released forever. But on a latch
constructed with count 0 (released: wait fast-returns) one countdown() wraps
the u32 counter from 0 up to 2^32 - 1 — an increase — after which wait()
blocks: the zero-counter released state is not terminal. -/
theorem C9_counterexample :
    (CountdownLatch.new 0).waitPath = WaitPath.fastReturn ∧
    (CountdownLatch.new 0).countdown.count > (CountdownLatch.new 0).count ∧
    (CountdownLatch.new 0).countdown.waitPath = WaitPath.blocked := by
  decide

/-- C9, amended: the released flag is one-shot and monotonic — once it is
true, any further sequence of wait() and countdown() calls leaves it true
(nothing ever resets it) and wait() never blocks again; the u32 counter,
however, can wrap upward past zero, so the flag rather than the counter is
the terminal released state. -/
theorem C9_flag_monotonic (l : CountdownLatch) (ops : List LatchOp)
    (h : l.status = true) :
    (l.applyOps ops).status = true ∧
    (l.applyOps ops).waitPath ≠ WaitPath.blocked := by
  have hs : ∀ (ops : List LatchOp) (l : CountdownLatch), l.status = true →
      (l.applyOps ops).status = true := by
    intro ops
    induction ops with
    | nil => intro l h; exact h
    | cons op rest ih =>
      intro l h
      show ((l.applyOp op).applyOps rest).status = true
      apply ih
      cases op with
      | wait => exact h
      | countdown =>
        show l.countdown.status = true
        rw [status_countdown, h, Bool.true_or]
  exact ⟨hs ops l h, waitPath_ne_blocked_of_status _ (hs ops l h)⟩

theorem C9_flag_monotonic_witness :
    ((CountdownLatch.new 1).countdown.status = true) ∧
    (((CountdownLatch.new 1).countdown.applyOps
        [LatchOp.countdown, LatchOp.wait, LatchOp.countdown]).status = true ∧
     ((CountdownLatch.new 1).countdown.applyOps
        [LatchOp.countdown, LatchOp.wait, LatchOp.countdown]).waitPath ≠
       WaitPath.blocked) :=
  ⟨by decide, C9_flag_monotonic ((CountdownLatch.new 1).countdown)
    [LatchOp.countdown, LatchOp.wait, LatchOp.countdown] (by decide)⟩

theorem getLatch_append (latches : List CountdownLatch) (x : CountdownLatch) :
    getLatch (latches ++ [x]) latches.length = x := by
  unfold getLatch
  rw [List.getD_eq_getElem?_getD, List.getElem?_concat_length]
  rfl

/-- C4: a pool on which die() has been called rejects submissions: send hands
the very same task back as Err, send_all hands the whole batch back unmodified,
and the pool state (in particular the queue) is untouched, so nothing is
enqueued and no worker can ever receive, let alone execute, those tasks. -/
theorem C4_dead_pool_rejects {T : Type} (p : ThreadPool T) (task : T)
    (tasks : List T) (hdead : p.dead = true) :
    p.send task = (Except.error task, p) ∧
    p.sendAll tasks = (Except.error tasks, p) ∧
    (p.send task).2.queue = p.queue ∧
    (p.sendAll tasks).2.queue = p.queue := by
  unfold ThreadPool.send ThreadPool.sendAll
  simp [hdead]

theorem C4_dead_pool_rejects_witness :
    ((ThreadPool.new Nat 2).die.dead = true) ∧
    ((ThreadPool.new Nat 2).die.send 7 = (Except.error 7, (ThreadPool.new Nat 2).die) ∧
     (ThreadPool.new Nat 2).die.sendAll [1, 2] =
       (Except.error [1, 2], (ThreadPool.new Nat 2).die) ∧
     ((ThreadPool.new Nat 2).die.send 7).2.queue = (ThreadPool.new Nat 2).die.queue ∧
     ((ThreadPool.new Nat 2).die.sendAll [1, 2]).2.queue =
       (ThreadPool.new Nat 2).die.queue) :=
  ⟨rfl, C4_dead_pool_rejects (ThreadPool.new Nat 2).die 7 [1, 2] rfl⟩

/-- C6: on an alive pool, send returns Ok wrapping a freshly allocated latch
(arena index = current arena size, an index no existing handle refers to) with
count 1, and send_all returns Ok wrapping one freshly allocated latch whose
count is the batch length, every enqueued command of the batch carrying that
same latch index. -/
theorem C6_alive_fresh_latch {T : Type} (p : ThreadPool T) (task : T)
    (tasks : List T) (halive : p.dead = false) (hlen : tasks.length < U32LIM) :
    (p.send task).1 = Except.ok (Wait.latch p.latches.length) ∧
    getLatch (p.send task).2.latches p.latches.length = CountdownLatch.new 1 ∧
    (CountdownLatch.new 1).count = 1 ∧
    (p.sendAll tasks).1 = Except.ok (Wait.latch p.latches.length) ∧
    (getLatch (p.sendAll tasks).2.latches p.latches.length).count = tasks.length ∧
    (p.sendAll tasks).2.queue = p.queue ++ tasks.map
      (fun t => ThreadCommand.command t (some p.latches.length)) := by
  unfold ThreadPool.send ThreadPool.sendAll
  simp [halive, getLatch_append]
  unfold CountdownLatch.new
  exact ⟨rfl, Nat.mod_eq_of_lt hlen⟩

theorem C6_alive_fresh_latch_witness :
    ((ThreadPool.new Nat 3).dead = false ∧ ([10, 20] : List Nat).length < U32LIM) ∧
    (((ThreadPool.new Nat 3).send 7).1 =
       Except.ok (Wait.latch (ThreadPool.new Nat 3).latches.length) ∧
     getLatch ((ThreadPool.new Nat 3).send 7).2.latches
       (ThreadPool.new Nat 3).latches.length = CountdownLatch.new 1 ∧
     (CountdownLatch.new 1).count = 1 ∧
     ((ThreadPool.new Nat 3).sendAll [10, 20]).1 =
       Except.ok (Wait.latch (ThreadPool.new Nat 3).latches.length) ∧
     (getLatch ((ThreadPool.new Nat 3).sendAll [10, 20]).2.latches
       (ThreadPool.new Nat 3).latches.length).count = ([10, 20] : List Nat).length ∧
     ((ThreadPool.new Nat 3).sendAll [10, 20]).2.queue =
       (ThreadPool.new Nat 3).queue ++ ([10, 20] : List Nat).map
         (fun t => ThreadCommand.command t (some (ThreadPool.new Nat 3).latches.length))) :=
  ⟨⟨rfl, by decide⟩, C6_alive_fresh_latch (ThreadPool.new Nat 3) 7 [10, 20] rfl (by decide)⟩

theorem runInline_eq_foldl {T S : Type} (f : T → S → S) (cs : List T) (s : S) :
    runInline f cs s = cs.foldl (fun a c => f c a) s := by
  induction cs generalizing s with
  | nil => rfl
  | cons c cs ih => simp [runInline, List.foldl_cons, ih]

theorem runInline_record {T : Type} (cs log : List T) :
    runInline (fun t l => l ++ [t]) cs log = log ++ cs := by
  induction cs generalizing log with
  | nil => simp [runInline]
  | cons c cs ih => simp [runInline, ih]

/-- C7: exec on the ThisThread variant threads the calling-thread state through
the callback once per command, sequentially in input order (it equals the left
fold of the callback over the command list; with a recording callback the log
is exactly the input list), and always returns Ok with the no-op Wait handle,
whose wait() returns at once without touching any primitive. -/
theorem C7_inline_in_order {T S : Type} (f : T → S → S) (commands : List T)
    (s : S) (latches : List CountdownLatch) :
    (BranchedExecutor.exec (BranchedExecutor.thisThread f) commands s).1 =
      Except.ok Wait.noop ∧
    (BranchedExecutor.exec (BranchedExecutor.thisThread f) commands s).2.2 =
      commands.foldl (fun a c => f c a) s ∧
    runInline (fun (t : T) (log : List T) => log ++ [t]) commands [] = commands ∧
    Wait.waitPath latches Wait.noop = WaitPath.fastReturn :=
  ⟨rfl, runInline_eq_foldl f commands s, by simp [runInline_record], rfl⟩

/-- C8: each die() call sets the dead flag and enqueues exactly one Die command
per configured worker thread; a second die() leaves the pool dead (and again
enqueues threadcount Die commands, its only effect); a dead pool accepts no new
task; and dropping the pool performs exactly die(). -/
theorem C8_die_shutdown {T : Type} (p : ThreadPool T) (task : T)
    (tasks : List T) :
    p.die.dead = true ∧
    p.die.queue = p.queue ++ List.replicate p.threadcount ThreadCommand.die ∧
    p.die.die.dead = true ∧
    p.die.die.queue = p.queue ++ List.replicate p.threadcount ThreadCommand.die
      ++ List.replicate p.threadcount ThreadCommand.die ∧
    (p.die.send task).1 = Except.error task ∧
    (p.die.sendAll tasks).1 = Except.error tasks ∧
    ThreadPool.dropPool p = p.die :=
  ⟨rfl, rfl, rfl, rfl, rfl, rfl, rfl⟩

theorem queueTasks_cons_command {T : Type} (t : T) (lid : Option Nat)
    (rest : List (ThreadCommand T)) :
    queueTasks (ThreadCommand.command t lid :: rest) = t :: queueTasks rest :=
  rfl

theorem queueTasks_map_batchCmd {T : Type} (qts : List T) :
    queueTasks (qts.map batchCmd) = qts := by
  induction qts with
  | nil => rfl
  | cons t ts ih =>
    rw [List.map_cons]
    show t :: queueTasks (ts.map batchCmd) = t :: ts
    rw [ih]

theorem perm_dequeue {T : Type} (A B D : List T) (t : T) :
    List.Perm (A ++ (B ++ [t]) ++ D) ((t :: A) ++ B ++ D) := by
  have h1 : A ++ (B ++ [t]) ++ D = (A ++ B) ++ t :: D := by simp
  have h2 : (t :: A) ++ B ++ D = t :: ((A ++ B) ++ D) := by simp
  rw [h1, h2]
  exact List.perm_middle

theorem perm_finish {T : Type} (Q P Po D : List T) (t : T) :
    List.Perm (Q ++ (P ++ Po) ++ (D ++ [t])) (Q ++ (P ++ t :: Po) ++ D) := by
  rw [List.append_assoc Q, List.append_assoc Q]
  apply List.Perm.append_left
  have h1 : List.Perm ((P ++ Po) ++ (D ++ [t])) (t :: ((P ++ Po) ++ D)) := by
    rw [← List.append_assoc]
    exact List.perm_append_singleton t ((P ++ Po) ++ D)
  have h2 : List.Perm ((P ++ t :: Po) ++ D) (t :: ((P ++ Po) ++ D)) := by
    have h3 := (@List.perm_middle _ t P Po).append_right D
    simp only [List.cons_append] at h3
    exact h3
  exact h1.trans h2.symm

theorem countdown_linear (N d : Nat) (hdN : d < N) (hN : N < U32LIM) :
    ({ status := decide (d = N ∧ 0 < N), count := N - d } : CountdownLatch).countdown
      = { status := decide (d + 1 = N ∧ 0 < N), count := N - (d + 1) } := by
  have hc : ({ status := decide (d = N ∧ 0 < N), count := N - d } :
      CountdownLatch).postDecrement = N - d - 1 :=
    postDecrement_eq _ (by show N - d < U32LIM; omega) (by show 1 ≤ N - d; omega)
  unfold CountdownLatch.countdown
  rw [hc]
  by_cases h : N - d - 1 = 0
  · rw [if_pos h]
    simp only [CountdownLatch.mk.injEq]
    constructor
    · have hp : d + 1 = N ∧ 0 < N := by omega
      simp [hp]
    · omega
  · rw [if_neg h]
    simp only [CountdownLatch.mk.injEq]
    constructor
    · exact decide_eq_decide.mpr (by omega)
    · omega

theorem getLatch_cons_zero (x : CountdownLatch) (xs : List CountdownLatch) :
    getLatch (x :: xs) 0 = x :=
  rfl

theorem countdownAt_single (x : CountdownLatch) :
    countdownAt [x] (some 0) = [x.countdown] :=
  rfl

theorem waitPath_blocked (l : CountdownLatch) (hc : 0 < l.count)
    (hs : l.status = false) : l.waitPath = WaitPath.blocked := by
  unfold CountdownLatch.waitPath
  rw [if_pos hc]
  simp [hs]

theorem initialBatchRun_eq {T : Type} (tc : Nat) (tasks : List T) :
    initialBatchRun T tc tasks =
      { pool := { threadcount := tc, dead := false,
                  queue := tasks.map batchCmd,
                  latches := [CountdownLatch.new tasks.length] },
        workers := tc, inflight := [], done := [] } :=
  rfl

theorem batchInv_init {T : Type} (tc : Nat) (tasks : List T)
    (hlen : tasks.length < U32LIM) :
    BatchInv tasks (initialBatchRun T tc tasks) := by
  rw [initialBatchRun_eq]
  refine ⟨⟨tasks, rfl⟩, ?_, ?_, ?_⟩
  · intro e he
    cases he
  · show List.Perm (queueTasks (tasks.map batchCmd) ++
      List.map Prod.fst [] ++ List.map Prod.fst []) tasks
    rw [queueTasks_map_batchCmd]
    simp
  · show [CountdownLatch.new tasks.length] =
      [{ status := decide ((List.length ([] : List (T × Option Nat))) = tasks.length
           ∧ 0 < tasks.length),
         count := tasks.length - List.length ([] : List (T × Option Nat)) }]
    unfold CountdownLatch.new
    simp only [List.length_nil, List.cons.injEq, CountdownLatch.mk.injEq, and_true]
    constructor
    · exact (decide_eq_false (by omega)).symm
    · rw [Nat.mod_eq_of_lt hlen]
      omega

theorem batchInv_step {T : Type} (tasks : List T) (hlen : tasks.length < U32LIM)
    (r r2 : PoolRun T) (hinv : BatchInv tasks r) (hstep : PoolStep T r r2) :
    BatchInv tasks r2 := by
  obtain ⟨qts, hqe⟩ := hinv.queue_eq
  cases hstep with
  | dequeueTask t lid rest hq hw =>
    rw [hqe] at hq
    cases qts with
    | nil => simp at hq
    | cons t0 tail =>
      simp only [batchCmd, List.map_cons, List.cons.injEq,
        ThreadCommand.command.injEq] at hq
      obtain ⟨⟨ht, hlid⟩, hrest⟩ := hq
      subst hlid
      subst ht
      refine ⟨⟨tail, hrest.symm⟩, ?_, ?_, ?_⟩
      · intro e he
        rcases List.mem_append.mp he with h | h
        · exact hinv.inflight_lids e h
        · rw [List.mem_singleton] at h
          rw [h]
      · have hold := hinv.conserve
        rw [hqe] at hold
        simp only [batchCmd, List.map_cons] at hold
        rw [queueTasks_cons_command, hrest] at hold
        show List.Perm (queueTasks rest ++
          (r.inflight ++ [(t0, some 0)]).map Prod.fst ++
          r.done.map Prod.fst) tasks
        rw [List.map_append]
        exact (perm_dequeue _ _ _ _).trans hold
      · exact hinv.latches_eq
  | finishTask pre post t lid hin =>
    have hmem : (t, lid) ∈ r.inflight := by
      rw [hin]
      exact List.mem_append_right pre (List.mem_cons_self _ _)
    have hlid : lid = some 0 := hinv.inflight_lids (t, lid) hmem
    have hd : r.done.length < tasks.length := by
      have hlq := hinv.conserve.length_eq
      rw [hin] at hlq
      simp only [List.length_append, List.length_map, List.length_cons] at hlq
      omega
    refine ⟨⟨qts, hqe⟩, ?_, ?_, ?_⟩
    · intro e he
      rcases List.mem_append.mp he with h | h
      · exact hinv.inflight_lids e (by rw [hin]; exact List.mem_append_left _ h)
      · exact hinv.inflight_lids e
          (by rw [hin]; exact List.mem_append_right _ (List.mem_cons_of_mem _ h))
    · have hold := hinv.conserve
      rw [hin] at hold
      simp only [List.map_append, List.map_cons] at hold
      show List.Perm (queueTasks r.pool.queue ++ (pre ++ post).map Prod.fst ++
        (r.done ++ [(t, lid)]).map Prod.fst) tasks
      simp only [List.map_append, List.map_cons]
      exact (perm_finish _ _ _ _ _).trans hold
    · show countdownAt r.pool.latches lid =
        [{ status := decide ((r.done ++ [(t, lid)]).length = tasks.length
             ∧ 0 < tasks.length),
           count := tasks.length - (r.done ++ [(t, lid)]).length }]
      rw [hlid, hinv.latches_eq, countdownAt_single,
        countdown_linear tasks.length r.done.length hd hlen]
      simp [List.length_append]
  | dequeueDie rest hq hw =>
    rw [hqe] at hq
    cases qts with
    | nil => simp at hq
    | cons t0 tail => simp [batchCmd] at hq

theorem batchInv_reach {T : Type} (tasks : List T) (hlen : tasks.length < U32LIM)
    (r0 r : PoolRun T) (h0 : BatchInv tasks r0) (hreach : PoolReach T r0 r) :
    BatchInv tasks r := by
  induction hreach with
  | refl => exact h0
  | tail b c hab hbc ih => exact batchInv_step tasks hlen b c ih hbc

/-- C2: for every thread count (at least 1) and every batch of tasks submitted
with send_all to a freshly constructed, alive pool, in every state the workers
can reach in which a wait() on the returned handle (latch 0) would return:
the completed worker-function invocations are exactly the batch — as many
invocations as tasks, and their tasks a permutation of the batch, so each task
was executed exactly once, none dropped, none twice. -/
theorem C2_batch_exactly_once {T : Type} (tc : Nat) (tasks : List T)
    (_htc : 1 ≤ tc) (hlen : tasks.length < U32LIM) (r : PoolRun T)
    (hreach : PoolReach T (initialBatchRun T tc tasks) r)
    (hwait : Wait.waitPath r.pool.latches (Wait.latch 0) ≠ WaitPath.blocked) :
    ((ThreadPool.new T tc).sendAll tasks).1 = Except.ok (Wait.latch 0) ∧
    r.done.length = tasks.length ∧
    List.Perm (r.done.map Prod.fst) tasks := by
  have hinv := batchInv_reach tasks hlen _ r (batchInv_init tc tasks hlen) hreach
  have hL : getLatch r.pool.latches 0 =
      { status := decide (r.done.length = tasks.length ∧ 0 < tasks.length),
        count := tasks.length - r.done.length } := by
    rw [hinv.latches_eq]
    rfl
  have hlq := hinv.conserve.length_eq
  simp only [List.length_append, List.length_map] at hlq
  have hdone : r.done.length = tasks.length := by
    by_contra hne
    apply hwait
    show (getLatch r.pool.latches 0).waitPath = WaitPath.blocked
    apply waitPath_blocked
    · rw [hL]
      show 0 < tasks.length - r.done.length
      omega
    · rw [hL]
      exact decide_eq_false (by omega)
  refine ⟨rfl, hdone, ?_⟩
  have hQ : queueTasks r.pool.queue = [] :=
    List.length_eq_zero.mp (by omega)
  have hI : r.inflight.map Prod.fst = [] :=
    List.length_eq_zero.mp (by rw [List.length_map]; omega)
  have h := hinv.conserve
  rw [hQ, hI] at h
  simpa using h

theorem c2demoStep1 : PoolStep Nat c2demoRun0 c2demoRun1 :=
  PoolStep.dequeueTask c2demoRun0 5 (some 0) [] rfl (by decide)

theorem c2demoStep2 : PoolStep Nat c2demoRun1 c2demoRun2 :=
  PoolStep.finishTask c2demoRun1 [] [] 5 (some 0) rfl

theorem c2demoReach : PoolReach Nat c2demoRun0 c2demoRun2 :=
  PoolReach.tail _ _ _
    (PoolReach.tail _ _ _ (PoolReach.refl c2demoRun0) c2demoStep1) c2demoStep2

theorem C2_batch_exactly_once_witness :
    (1 ≤ 1 ∧ ([5] : List Nat).length < U32LIM ∧
     PoolReach Nat (initialBatchRun Nat 1 [5]) c2demoRun2 ∧
     Wait.waitPath c2demoRun2.pool.latches (Wait.latch 0) ≠ WaitPath.blocked) ∧
    (((ThreadPool.new Nat 1).sendAll [5]).1 = Except.ok (Wait.latch 0) ∧
     c2demoRun2.done.length = ([5] : List Nat).length ∧
     List.Perm (c2demoRun2.done.map Prod.fst) [5]) :=
  ⟨⟨by decide, by decide, c2demoReach, by decide⟩,
    C2_batch_exactly_once 1 [5] (by decide) (by decide) c2demoRun2 c2demoReach
      (by decide)⟩

theorem no_step_zero_workers {T : Type} (r r2 : PoolRun T)
    (hw : r.workers = 0) (hi : r.inflight = []) (hstep : PoolStep T r r2) :
    False := by
  cases hstep with
  | dequeueTask t lid rest hq hwlt =>
    rw [hw] at hwlt
    omega
  | finishTask pre post t lid hin =>
    rw [hi] at hin
    simp at hin
  | dequeueDie rest hq hwlt =>
    rw [hw] at hwlt
    omega

theorem reach_zero_workers_fix {T : Type} (r0 r : PoolRun T)
    (hw : r0.workers = 0) (hi : r0.inflight = [])
    (hreach : PoolReach T r0 r) : r = r0 := by
  induction hreach with
  | refl => rfl
  | tail b c hab hbc ih =>
    rw [ih] at hbc
    exact (no_step_zero_workers r0 c hw hi hbc).elim

/-- C10: a pool constructed with thread count 0 spawns no worker, yet while it
is not dead send still returns Ok with a fresh latch: in every state such a
pool can reach, nothing is ever executed (done stays empty) and a wait() on
the returned handle blocks. More generally the success of send and send_all
depends only on the dead flag (the channel send result is discarded), so Ok
never implies a worker exists to run the task or count the latch down. -/
theorem C10_zero_threads_ok_no_execution {T : Type} (t : T) (r : PoolRun T)
    (hreach : PoolReach T (initialSendRun T 0 t) r)
    (p : ThreadPool T) (ts : List T) :
    ((ThreadPool.new T 0).send t).1 = Except.ok (Wait.latch 0) ∧
    r.done = [] ∧
    Wait.waitPath r.pool.latches (Wait.latch 0) = WaitPath.blocked ∧
    ((∃ w, (p.send t).1 = Except.ok w) ↔ p.dead = false) ∧
    ((∃ w, (p.sendAll ts).1 = Except.ok w) ↔ p.dead = false) := by
  have hr : r = initialSendRun T 0 t :=
    reach_zero_workers_fix (initialSendRun T 0 t) r rfl rfl hreach
  refine ⟨rfl, ?_, ?_, ?_, ?_⟩
  · rw [hr]
    rfl
  · rw [hr]
    rfl
  · unfold ThreadPool.send
    by_cases hd : p.dead <;> simp [hd]
  · unfold ThreadPool.sendAll
    by_cases hd : p.dead <;> simp [hd]

theorem C10_zero_threads_ok_no_execution_witness :
    (PoolReach Nat (initialSendRun Nat 0 42) (initialSendRun Nat 0 42)) ∧
    (((ThreadPool.new Nat 0).send 42).1 = Except.ok (Wait.latch 0) ∧
     (initialSendRun Nat 0 42).done = [] ∧
     Wait.waitPath (initialSendRun Nat 0 42).pool.latches (Wait.latch 0) =
       WaitPath.blocked ∧
     ((∃ w, ((ThreadPool.new Nat 1).send 42).1 = Except.ok w) ↔
       (ThreadPool.new Nat 1).dead = false) ∧
     ((∃ w, ((ThreadPool.new Nat 1).sendAll [1, 2]).1 = Except.ok w) ↔
       (ThreadPool.new Nat 1).dead = false)) :=
  ⟨PoolReach.refl (initialSendRun Nat 0 42),
    C10_zero_threads_ok_no_execution 42 (initialSendRun Nat 0 42)
      (PoolReach.refl (initialSendRun Nat 0 42)) (ThreadPool.new Nat 1) [1, 2]⟩

end Underlion

